import Mathlib

/-! # ch552-led-status: status table, host report decoder and reboot button

A shallow embedding of `3keys_1knob.c` and of the endpoint-2 OUT handler of
`include/usb_hid.c`.

* C globals become fields of an explicit state that is passed in and returned.
* `uint8_t` / `uint16_t` values are natural numbers; the one place where the
  width matters for the result (`remaining_ms -= elapsed_ms`, the narrowing
  `uint8_t len = USB_RX_LEN`) reduces modulo `2^16` resp. `2^8` explicitly.
* Calls into the hardware layers that are not part of the two files (NeoPixel,
  keyboard, delay, watchdog, the `EA` bit) are recorded, in program order, in
  a trace of effects.
-/

namespace LedStatusFw

/-! ## Constants (`3keys_1knob.c`, lines 22-26) -/

/-- Number of LEDs: `#define LED_COUNT 10`. -/
def LED_COUNT : Nat := 10

/-- Timeout window: `#define STATUS_TIMEOUT_MS 5000`. -/
def STATUS_TIMEOUT_MS : Nat := 5000

/-- Loop cadence: `#define LOOP_DELAY_MS 20`. -/
def LOOP_DELAY_MS : Nat := 20

/-! ## Data model -/

/-- The record `struct LedStatus` : three 8-bit channels and a 16-bit countdown. -/
structure LedStatus where
  r : Nat
  g : Nat
  b : Nat
  remaining_ms : Nat
deriving DecidableEq, Repr

/-- The array `statuses[LED_COUNT]`. -/
abbrev Statuses := Fin LED_COUNT → LedStatus

/-- Key codes handed to `KBD_press` / `KBD_release` (their numeric values live
in `usb_conkbd.h`, only the names are used here). -/
inductive KbdKey where
  | KBD_KEY_LEFT_CTRL
  | KBD_KEY_LEFT_ALT
  | KBD_KEY_DELETE
deriving DecidableEq, Repr

/-- Calls that leave the two source files, and writes to the `EA` bit. -/
inductive Effect where
  | EA_write (v : Nat)
  | NEO_writeColor (r g b : Nat)
  | NEO_latch
  | KBD_press (k : KbdKey)
  | KBD_release (k : KbdKey)
  | DLY_ms (ms : Nat)
  | WDT_reset
  | NEO_init
  | CLK_config
  | KBD_init
  | WDT_start
  | PIN_input_PU
deriving DecidableEq, Repr

/-- The mutable state the two files touch: the status table, `button_last`,
the `UEP2_CTRL` register, and the trace of effects emitted so far. -/
structure Device where
  statuses : Statuses
  button_last : Nat
  UEP2_CTRL : Nat
  trace : List Effect

/-! ## Status table operations (`3keys_1knob.c`, lines 59-97) -/

/-- Function `set_status` : guarded, then four field writes to `statuses[index]`. -/
def set_status (statuses : Statuses) (index r g b : Nat) : Statuses :=
  if h : index ≥ LED_COUNT then statuses
  else
    let i : Fin LED_COUNT := ⟨index, Nat.lt_of_not_ge h⟩
    let s1 := Function.update statuses i { statuses i with r := r }
    let s2 := Function.update s1 i { s1 i with g := g }
    let s3 := Function.update s2 i { s2 i with b := b }
    Function.update s3 i { s3 i with remaining_ms := STATUS_TIMEOUT_MS }

/-- Function `clear_status` : guarded, then four field writes of zero. -/
def clear_status (statuses : Statuses) (index : Nat) : Statuses :=
  if h : index ≥ LED_COUNT then statuses
  else
    let i : Fin LED_COUNT := ⟨index, Nat.lt_of_not_ge h⟩
    let s1 := Function.update statuses i { statuses i with r := 0 }
    let s2 := Function.update s1 i { s1 i with g := 0 }
    let s3 := Function.update s2 i { s2 i with b := 0 }
    Function.update s3 i { s3 i with remaining_ms := 0 }

/-- Body of the `for` loop of `update_timeouts` at loop index `i`. The
compound assignment `remaining_ms -= elapsed_ms` is 16-bit unsigned. -/
def update_timeouts_body (elapsed_ms : Nat) (statuses : Statuses) (i : Fin LED_COUNT) :
    Statuses :=
  if (statuses i).remaining_ms = 0 then statuses
  else if (statuses i).remaining_ms ≤ elapsed_ms then clear_status statuses i.val
  else
    Function.update statuses i
      { statuses i with
        remaining_ms := ((statuses i).remaining_ms + 65536 - elapsed_ms) % 65536 }

/-- Function `update_timeouts` : the loop runs `i = 0, 1, ..., LED_COUNT - 1`. -/
def update_timeouts (elapsed_ms : Nat) (statuses : Statuses) : Statuses :=
  (List.finRange LED_COUNT).foldl (update_timeouts_body elapsed_ms) statuses

/-- What one visit of the `update_timeouts` loop does to the slot it visits. -/
def decay_slot (elapsed_ms : Nat) (s : LedStatus) : LedStatus :=
  if s.remaining_ms = 0 then s
  else if s.remaining_ms ≤ elapsed_ms then ⟨0, 0, 0, 0⟩
  else { s with remaining_ms := (s.remaining_ms + 65536 - elapsed_ms) % 65536 }

/-! ## Strip renderer and keyboard shortcut (`3keys_1knob.c`, lines 48-57, 99-110) -/

/-- Function `apply_status_strip` : `EA = 0`, one `NEO_writeColor` per slot in index
order, `EA = 1`, `NEO_latch`. -/
def apply_status_strip (d : Device) : Device :=
  { d with
    trace := d.trace ++ [Effect.EA_write 0]
      ++ (List.finRange LED_COUNT).map
          (fun i => Effect.NEO_writeColor (d.statuses i).r (d.statuses i).g (d.statuses i).b)
      ++ [Effect.EA_write 1, Effect.NEO_latch] }

/-- The calls made by one `send_ctrl_alt_del`, in program order. -/
def ctrl_alt_del_effects : List Effect :=
  [ Effect.KBD_press KbdKey.KBD_KEY_LEFT_CTRL,
    Effect.KBD_press KbdKey.KBD_KEY_LEFT_ALT,
    Effect.KBD_press KbdKey.KBD_KEY_DELETE,
    Effect.DLY_ms 10,
    Effect.KBD_release KbdKey.KBD_KEY_DELETE,
    Effect.KBD_release KbdKey.KBD_KEY_LEFT_ALT,
    Effect.KBD_release KbdKey.KBD_KEY_LEFT_CTRL ]

/-- Function `send_ctrl_alt_del` : three presses, a 10 ms delay, three releases. -/
def send_ctrl_alt_del (d : Device) : Device :=
  { d with trace := d.trace ++ ctrl_alt_del_effects }

/-! ## Reboot button (`3keys_1knob.c`, lines 112-120) -/

/-- Function `handle_reboot_button`, with the value returned by `PIN_read(PIN_KEY1)`
as the argument `pin`. -/
def handle_reboot_button (pin : Nat) (d : Device) : Device :=
  let pressed : Nat := if pin = 0 then 1 else 0
  let d1 := if pressed ≠ 0 ∧ d.button_last = 0 then send_ctrl_alt_del d else d
  { d1 with button_last := pressed }

/-! ## Endpoint 2 OUT handler (`include/usb_hid.c`, lines 71-81) -/

/-- Function `HID_EP2_OUT`. The register `USB_RX_LEN` and the receive buffer
`EP2_buffer` are inputs; the two register constants of `ch554.h` are
parameters. -/
def HID_EP2_OUT (MASK_UEP_R_RES UEP_R_RES_ACK : Nat) (USB_RX_LEN : Nat)
    (EP2_buffer : Nat → Nat) (d : Device) : Device :=
  let len := USB_RX_LEN % 256
  let d1 :=
    if len ≥ 5 ∧ EP2_buffer 0 = 0x03 then
      { d with
        statuses :=
          set_status d.statuses (EP2_buffer 1) (EP2_buffer 2) (EP2_buffer 3) (EP2_buffer 4) }
    else d
  { d1 with
    UEP2_CTRL := ((d1.UEP2_CTRL &&& (65535 - MASK_UEP_R_RES % 65536)) ||| UEP_R_RES_ACK) % 256 }

/-- A receive buffer that holds `bytes` from offset 0 on and zero after them. -/
def report_buffer (bytes : List Nat) : Nat → Nat :=
  fun k => bytes.getD k 0

/-! ## Histories of status-table calls -/

/-- One call of a status-table operation. -/
inductive TableCall where
  | set_status (index r g b : Nat)
  | clear_status (index : Nat)
  | update_timeouts (elapsed_ms : Nat)
deriving DecidableEq, Repr

/-- Effect of one call on the table. -/
def TableCall.apply (statuses : Statuses) : TableCall → Statuses
  | .set_status index r g b => LedStatusFw.set_status statuses index r g b
  | .clear_status index => LedStatusFw.clear_status statuses index
  | .update_timeouts elapsed_ms => LedStatusFw.update_timeouts elapsed_ms statuses

/-- The table after system init: every slot cleared. -/
def all_cleared : Statuses := fun _ => ⟨0, 0, 0, 0⟩

/-- The table reached from the all-cleared table by a sequence of calls. -/
def run_calls (calls : List TableCall) : Statuses :=
  calls.foldl TableCall.apply all_cleared

/-- The call is not a `set_status` with color (0,0,0). -/
def TableCall.lit : TableCall → Prop
  | .set_status _ r g b => ¬ (r = 0 ∧ g = 0 ∧ b = 0)
  | _ => True

instance (c : TableCall) : Decidable c.lit := by
  cases c <;> unfold TableCall.lit <;> infer_instance

/-- The state of the button path after feeding the pin levels, one per call,
starting from `d`. -/
def run_button (levels : List Nat) (d : Device) : Device :=
  levels.foldl (fun d pin => handle_reboot_button pin d) d

/-- Power-on state of the button path: `button_last = 0`, nothing sent yet. -/
def button_boot (statuses : Statuses) (ctrl : Nat) : Device :=
  { statuses := statuses, button_last := 0, UEP2_CTRL := ctrl, trace := [] }

/-- Number of positions `k` of `levels` at which the level is pressed (`0`)
and the level before it (the idle initial state for `k = 0`) is not. -/
def press_edges (levels : List Nat) : Nat :=
  ((List.range levels.length).filter
    (fun k => levels.getD k 1 = 0 ∧ (k = 0 ∨ levels.getD (k - 1) 1 ≠ 0))).length

/-! ## Main function (`3keys_1knob.c`, lines 125-157) -/

/-- Append one effect to the trace. -/
def emit (e : Effect) (d : Device) : Device :=
  { d with trace := d.trace ++ [e] }

/-- The local `struct LedStatus boot_color = COLOR_ORANGE;` with the constant
`NEO_MAX` of the configuration header as a parameter. The initialisers are
narrowed to the 8-bit fields. -/
def boot_color (NEO_MAX : Nat) : LedStatus :=
  ⟨NEO_MAX % 256, (NEO_MAX / 3) % 256, 0, STATUS_TIMEOUT_MS % 65536⟩

/-- The part of `main` before the `while (1)` loop: six setup calls, the loop
`clear_status(i)` for `i = 0 .. LED_COUNT - 1`, the boot `set_status` of slot 0,
and one `apply_status_strip`. -/
def main_init (NEO_MAX : Nat) (d : Device) : Device :=
  let d1 := emit Effect.NEO_init d
  let d2 := emit Effect.CLK_config d1
  let d3 := emit (Effect.DLY_ms 5) d2
  let d4 := emit Effect.KBD_init d3
  let d5 := emit Effect.WDT_start d4
  let d6 := emit Effect.PIN_input_PU d5
  let d7 := { d6 with statuses := (List.range LED_COUNT).foldl clear_status d6.statuses }
  let d8 := { d7 with
    statuses := set_status d7.statuses 0
      (boot_color NEO_MAX).r (boot_color NEO_MAX).g (boot_color NEO_MAX).b }
  apply_status_strip d8

/-- One pass through the body of `while (1)`, with the pin level read by
`handle_reboot_button` as the argument `pin`. -/
def main_loop_iteration (pin : Nat) (d : Device) : Device :=
  let d1 := handle_reboot_button pin d
  let d2 := { d1 with statuses := update_timeouts LOOP_DELAY_MS d1.statuses }
  let d3 := apply_status_strip d2
  let d4 := emit (Effect.DLY_ms LOOP_DELAY_MS) d3
  emit Effect.WDT_reset d4

/-- The first `pins.length` passes of the main loop, one pin level per pass. -/
def main_loop (pins : List Nat) (d : Device) : Device :=
  pins.foldl (fun d pin => main_loop_iteration pin d) d

/-- The six setup calls at the start of `main`, in program order. -/
def setup_effects : List Effect :=
  [ Effect.NEO_init, Effect.CLK_config, Effect.DLY_ms 5, Effect.KBD_init,
    Effect.WDT_start, Effect.PIN_input_PU ]

/-- One frame showing the table `s`: interrupts off, the colors of slots 0 to 9
in ascending order, interrupts on, latch. -/
def frame_effects (s : Statuses) : List Effect :=
  [ Effect.EA_write 0,
    Effect.NEO_writeColor (s ⟨0, by decide⟩).r (s ⟨0, by decide⟩).g (s ⟨0, by decide⟩).b,
    Effect.NEO_writeColor (s ⟨1, by decide⟩).r (s ⟨1, by decide⟩).g (s ⟨1, by decide⟩).b,
    Effect.NEO_writeColor (s ⟨2, by decide⟩).r (s ⟨2, by decide⟩).g (s ⟨2, by decide⟩).b,
    Effect.NEO_writeColor (s ⟨3, by decide⟩).r (s ⟨3, by decide⟩).g (s ⟨3, by decide⟩).b,
    Effect.NEO_writeColor (s ⟨4, by decide⟩).r (s ⟨4, by decide⟩).g (s ⟨4, by decide⟩).b,
    Effect.NEO_writeColor (s ⟨5, by decide⟩).r (s ⟨5, by decide⟩).g (s ⟨5, by decide⟩).b,
    Effect.NEO_writeColor (s ⟨6, by decide⟩).r (s ⟨6, by decide⟩).g (s ⟨6, by decide⟩).b,
    Effect.NEO_writeColor (s ⟨7, by decide⟩).r (s ⟨7, by decide⟩).g (s ⟨7, by decide⟩).b,
    Effect.NEO_writeColor (s ⟨8, by decide⟩).r (s ⟨8, by decide⟩).g (s ⟨8, by decide⟩).b,
    Effect.NEO_writeColor (s ⟨9, by decide⟩).r (s ⟨9, by decide⟩).g (s ⟨9, by decide⟩).b,
    Effect.EA_write 1,
    Effect.NEO_latch ]

/-! ## Histories that include host reports -/

/-- One call that can change the status table: a status-table operation, or the
endpoint handler run on a received report. -/
inductive DeviceCall where
  | table (c : TableCall)
  | HID_EP2_OUT (USB_RX_LEN : Nat) (EP2_buffer : Nat → Nat)

/-- Effect of one call on the device state. -/
def DeviceCall.apply (MASK_UEP_R_RES UEP_R_RES_ACK : Nat) (d : Device) : DeviceCall → Device
  | .table c => { d with statuses := c.apply d.statuses }
  | .HID_EP2_OUT len buf => LedStatusFw.HID_EP2_OUT MASK_UEP_R_RES UEP_R_RES_ACK len buf d

/-- The device state reached from the all-cleared table by a sequence of calls. -/
def run_device_calls (MASK_UEP_R_RES UEP_R_RES_ACK ctrl : Nat) (calls : List DeviceCall) :
    Device :=
  calls.foldl (DeviceCall.apply MASK_UEP_R_RES UEP_R_RES_ACK) (button_boot all_cleared ctrl)

/-- The call is an `update_timeouts(20)`, or a `set_status` / `clear_status` whose
8-bit index is not `i`. -/
def TableCall.spares (i : Nat) : TableCall → Prop
  | .set_status index _ _ _ => index ≠ i
  | .clear_status index => index ≠ i
  | .update_timeouts e => e = 20

instance (i : Nat) (c : TableCall) : Decidable (c.spares i) := by
  cases c <;> unfold TableCall.spares <;> infer_instance

/-- Number of `update_timeouts` calls in a history. -/
def tick_count : List TableCall → Nat
  | [] => 0
  | .update_timeouts _ :: rest => tick_count rest + 1
  | _ :: rest => tick_count rest

/-- Keys of the `KBD_press` calls of a trace, in order. -/
def pressed_keys : List Effect → List KbdKey
  | [] => []
  | Effect.KBD_press k :: rest => k :: pressed_keys rest
  | _ :: rest => pressed_keys rest

/-- Keys of the `KBD_release` calls of a trace, in order. -/
def released_keys : List Effect → List KbdKey
  | [] => []
  | Effect.KBD_release k :: rest => k :: released_keys rest
  | _ :: rest => released_keys rest

/-! ## Basic facts about the table operations -/

theorem set_status_of_lt (statuses : Statuses) (index r g b : Nat) (h : index < LED_COUNT) :
    set_status statuses index r g b
      = Function.update statuses ⟨index, h⟩ ⟨r, g, b, STATUS_TIMEOUT_MS⟩ := by
  have hn : ¬ index ≥ LED_COUNT := Nat.not_le.mpr h
  simp only [set_status, hn, dite_false]
  funext j
  by_cases hj : j = ⟨index, h⟩
  · subst hj; simp
  · simp [Function.update_noteq hj]

theorem set_status_of_ge (statuses : Statuses) (index r g b : Nat) (h : index ≥ LED_COUNT) :
    set_status statuses index r g b = statuses := by
  simp [set_status, h]

theorem clear_status_of_lt (statuses : Statuses) (index : Nat) (h : index < LED_COUNT) :
    clear_status statuses index = Function.update statuses ⟨index, h⟩ ⟨0, 0, 0, 0⟩ := by
  have hn : ¬ index ≥ LED_COUNT := Nat.not_le.mpr h
  simp only [clear_status, hn, dite_false]
  funext j
  by_cases hj : j = ⟨index, h⟩
  · subst hj; simp
  · simp [Function.update_noteq hj]

theorem clear_status_of_ge (statuses : Statuses) (index : Nat) (h : index ≥ LED_COUNT) :
    clear_status statuses index = statuses := by
  simp [clear_status, h]

theorem update_timeouts_body_eq (elapsed_ms : Nat) (statuses : Statuses) (i : Fin LED_COUNT) :
    update_timeouts_body elapsed_ms statuses i
      = Function.update statuses i (decay_slot elapsed_ms (statuses i)) := by
  unfold update_timeouts_body decay_slot
  by_cases h0 : (statuses i).remaining_ms = 0
  · simp [h0]
  · by_cases h1 : (statuses i).remaining_ms ≤ elapsed_ms
    · simp only [h0, h1, if_true, if_false]
      exact clear_status_of_lt statuses i.val i.isLt
    · simp only [h0, h1, if_false]

/-- A pass that rewrites each visited slot from its own current value, over
a duplicate-free list of indices. -/
theorem foldl_update_apply {n : Nat} {α : Type} (f : α → α) (l : List (Fin n))
    (hl : l.Nodup) (s : Fin n → α) (j : Fin n) :
    (l.foldl (fun t i => Function.update t i (f (t i))) s) j
      = if j ∈ l then f (s j) else s j := by
  induction l generalizing s with
  | nil => simp
  | cons a l ih =>
    have hnd := List.nodup_cons.mp hl
    rw [List.foldl_cons, ih hnd.2]
    by_cases hja : j = a
    · subst hja
      simp [hnd.1]
    · by_cases hjl : j ∈ l
      · simp [hjl, Function.update_noteq hja]
      · simp [hjl, hja, Function.update_noteq hja]

theorem update_timeouts_apply (elapsed_ms : Nat) (statuses : Statuses) (j : Fin LED_COUNT) :
    update_timeouts elapsed_ms statuses j = decay_slot elapsed_ms (statuses j) := by
  unfold update_timeouts
  have hb : update_timeouts_body elapsed_ms
      = fun t i => Function.update t i (decay_slot elapsed_ms (t i)) := by
    funext t i; exact update_timeouts_body_eq elapsed_ms t i
  rw [hb, foldl_update_apply (decay_slot elapsed_ms) _ (List.nodup_finRange _)]
  simp


theorem set_status_apply (statuses : Statuses) (index r g b : Nat) (j : Fin LED_COUNT) :
    set_status statuses index r g b j
      = if j.val = index then ⟨r, g, b, STATUS_TIMEOUT_MS⟩ else statuses j := by
  by_cases h : index < LED_COUNT
  · rw [set_status_of_lt statuses index r g b h]
    by_cases hj : j.val = index
    · have : j = ⟨index, h⟩ := Fin.ext hj
      subst this; simp
    · have : j ≠ ⟨index, h⟩ := fun e => hj (by rw [e])
      simp [Function.update_noteq this, hj]
  · rw [set_status_of_ge statuses index r g b (Nat.le_of_not_lt h)]
    have : j.val ≠ index := fun e => h (e ▸ j.isLt)
    simp [this]

theorem clear_status_apply (statuses : Statuses) (index : Nat) (j : Fin LED_COUNT) :
    clear_status statuses index j = if j.val = index then ⟨0, 0, 0, 0⟩ else statuses j := by
  by_cases h : index < LED_COUNT
  · rw [clear_status_of_lt statuses index h]
    by_cases hj : j.val = index
    · have : j = ⟨index, h⟩ := Fin.ext hj
      subst this; simp
    · have : j ≠ ⟨index, h⟩ := fun e => hj (by rw [e])
      simp [Function.update_noteq this, hj]
  · rw [clear_status_of_ge statuses index (Nat.le_of_not_lt h)]
    have : j.val ≠ index := fun e => h (e ▸ j.isLt)
    simp [this]

theorem HID_EP2_OUT_statuses (m a len : Nat) (buf : Nat → Nat) (d : Device) :
    (HID_EP2_OUT m a len buf d).statuses
      = if len % 256 ≥ 5 ∧ buf 0 = 0x03
          then set_status d.statuses (buf 1) (buf 2) (buf 3) (buf 4)
          else d.statuses := by
  unfold HID_EP2_OUT
  by_cases h : len % 256 ≥ 5 ∧ buf 0 = 0x03
  · simp only [h, and_self, if_true]
  · simp only [h, if_false]

/-! ## The status table: `set_status` and `update_timeouts` -/

/-- C1: for every table, every index below 10 and every r, g, b (in particular
all 8-bit values), `set_status` leaves slot `index` holding color (r, g, b) with
remaining lifetime exactly 5000, and every other slot exactly as it was. -/
theorem set_status_in_range (statuses : Statuses) (index r g b : Nat) (h : index < 10) :
    set_status statuses index r g b ⟨index, h⟩ = ⟨r, g, b, 5000⟩
    ∧ ∀ j : Fin LED_COUNT, j.val ≠ index →
        set_status statuses index r g b j = statuses j := by
  refine ⟨?_, fun j hj => ?_⟩
  · rw [set_status_apply]; simp [STATUS_TIMEOUT_MS]
  · rw [set_status_apply]; simp [hj]

theorem set_status_in_range_witness :
    set_status (clear_status all_cleared 0) 3 255 0 0 ⟨3, by decide⟩ = ⟨255, 0, 0, 5000⟩
    ∧ ∀ j : Fin LED_COUNT, j.val ≠ 3 →
        set_status (clear_status all_cleared 0) 3 255 0 0 j = clear_status all_cleared 0 j :=
  set_status_in_range (clear_status all_cleared 0) 3 255 0 0 (by decide)

/-- C2: for every table and every index that is 10 or more (so every 8-bit
value 10..255), `set_status` returns the table it was given: no slot differs in
color or lifetime. The operation has no error result. -/
theorem set_status_out_of_range (statuses : Statuses) (index r g b : Nat) (h : 10 ≤ index) :
    set_status statuses index r g b = statuses :=
  set_status_of_ge statuses index r g b h

theorem set_status_out_of_range_witness :
    set_status (set_status all_cleared 9 1 2 3) 10 255 255 255 = set_status all_cleared 9 1 2 3
    ∧ set_status (set_status all_cleared 9 1 2 3) 255 255 255 255
        = set_status all_cleared 9 1 2 3 :=
  ⟨set_status_out_of_range _ 10 255 255 255 (by decide),
   set_status_out_of_range _ 255 255 255 255 (by decide)⟩

/-- C3: for every table whose slot `j` holds a 16-bit lifetime `L`, and every
elapsed value `e`: if `L` is nonzero and `e >= L` the slot becomes (0,0,0) with
lifetime 0; if `L` is nonzero and `e < L` the color is unchanged and the new
lifetime is the exact integer `L - e` (new lifetime plus `e` is `L`, no 16-bit
wrap-around); if `L` is 0 the slot is unchanged. -/
theorem update_timeouts_slot (statuses : Statuses) (e : Nat) (j : Fin LED_COUNT)
    (h16 : (statuses j).remaining_ms < 65536) :
    ((statuses j).remaining_ms ≠ 0 → (statuses j).remaining_ms ≤ e →
        update_timeouts e statuses j = ⟨0, 0, 0, 0⟩)
    ∧ ((statuses j).remaining_ms ≠ 0 → e < (statuses j).remaining_ms →
        (update_timeouts e statuses j).r = (statuses j).r
        ∧ (update_timeouts e statuses j).g = (statuses j).g
        ∧ (update_timeouts e statuses j).b = (statuses j).b
        ∧ (update_timeouts e statuses j).remaining_ms + e = (statuses j).remaining_ms)
    ∧ ((statuses j).remaining_ms = 0 → update_timeouts e statuses j = statuses j) := by
  rw [update_timeouts_apply]
  unfold decay_slot
  refine ⟨fun h0 hle => ?_, fun h0 hlt => ?_, fun h0 => ?_⟩
  · simp [h0, hle]
  · have hnle : ¬ (statuses j).remaining_ms ≤ e := Nat.not_le.mpr hlt
    simp only [h0, hnle, if_false, true_and]
    have : ((statuses j).remaining_ms + 65536 - e) % 65536 = (statuses j).remaining_ms - e := by
      have h1 : (statuses j).remaining_ms + 65536 - e
          = ((statuses j).remaining_ms - e) + 65536 := by omega
      rw [h1, Nat.add_mod_right]
      exact Nat.mod_eq_of_lt (by omega)
    rw [this]; omega
  · simp [h0]

theorem update_timeouts_slot_witness :
    update_timeouts 5000 (set_status all_cleared 3 255 0 0) ⟨3, by decide⟩ = ⟨0, 0, 0, 0⟩
    ∧ ((update_timeouts 20 (set_status all_cleared 3 255 0 0) ⟨3, by decide⟩).r
          = (set_status all_cleared 3 255 0 0 ⟨3, by decide⟩).r
        ∧ (update_timeouts 20 (set_status all_cleared 3 255 0 0) ⟨3, by decide⟩).g
          = (set_status all_cleared 3 255 0 0 ⟨3, by decide⟩).g
        ∧ (update_timeouts 20 (set_status all_cleared 3 255 0 0) ⟨3, by decide⟩).b
          = (set_status all_cleared 3 255 0 0 ⟨3, by decide⟩).b
        ∧ (update_timeouts 20 (set_status all_cleared 3 255 0 0) ⟨3, by decide⟩).remaining_ms
            + 20 = (set_status all_cleared 3 255 0 0 ⟨3, by decide⟩).remaining_ms)
    ∧ update_timeouts 20 (set_status all_cleared 3 255 0 0) ⟨4, by decide⟩
        = set_status all_cleared 3 255 0 0 ⟨4, by decide⟩ :=
  ⟨(update_timeouts_slot (set_status all_cleared 3 255 0 0) 5000 ⟨3, by decide⟩
      (by decide)).1 (by decide) (by decide),
   (update_timeouts_slot (set_status all_cleared 3 255 0 0) 20 ⟨3, by decide⟩
      (by decide)).2.1 (by decide) (by decide),
   (update_timeouts_slot (set_status all_cleared 3 255 0 0) 20 ⟨4, by decide⟩
      (by decide)).2.2 (by decide)⟩

/-! ## The host report decoder -/

/-- C4: for every 5-byte host report with first byte 0x03, the status table
after `HID_EP2_OUT` is the one `set_status` yields for the raw bytes 1..4 of the
buffer (index passed through unchecked). In particular the report
[0x03, 3, 255, 0, 0] leaves slot 3 at (255, 0, 0) with lifetime 5000, and a
report whose index byte is 10 or more changes no slot. -/
theorem HID_EP2_OUT_five_bytes (m a : Nat) (buf : Nat → Nat) (d : Device)
    (h0 : buf 0 = 0x03) :
    (HID_EP2_OUT m a 5 buf d).statuses
        = set_status d.statuses (buf 1) (buf 2) (buf 3) (buf 4)
    ∧ (buf 1 = 3 → buf 2 = 255 → buf 3 = 0 → buf 4 = 0 →
        (HID_EP2_OUT m a 5 buf d).statuses ⟨3, by decide⟩ = ⟨255, 0, 0, 5000⟩)
    ∧ (10 ≤ buf 1 → (HID_EP2_OUT m a 5 buf d).statuses = d.statuses) := by
  have hs : (HID_EP2_OUT m a 5 buf d).statuses
      = set_status d.statuses (buf 1) (buf 2) (buf 3) (buf 4) := by
    rw [HID_EP2_OUT_statuses]; simp [h0]
  refine ⟨hs, fun h1 h2 h3 h4 => ?_, fun h1 => ?_⟩
  · rw [hs, h1, h2, h3, h4, set_status_apply]; simp [STATUS_TIMEOUT_MS]
  · rw [hs]; exact set_status_of_ge _ _ _ _ _ h1

theorem HID_EP2_OUT_five_bytes_witness :
    (HID_EP2_OUT 0x0C 0 5 (report_buffer [0x03, 3, 255, 0, 0])
        (button_boot all_cleared 0)).statuses ⟨3, by decide⟩ = ⟨255, 0, 0, 5000⟩
    ∧ (HID_EP2_OUT 0x0C 0 5 (report_buffer [0x03, 10, 255, 0, 0])
        (button_boot all_cleared 0)).statuses = (button_boot all_cleared 0).statuses :=
  ⟨(HID_EP2_OUT_five_bytes 0x0C 0 (report_buffer [0x03, 3, 255, 0, 0])
      (button_boot all_cleared 0) rfl).2.1 rfl rfl rfl rfl,
   (HID_EP2_OUT_five_bytes 0x0C 0 (report_buffer [0x03, 10, 255, 0, 0])
      (button_boot all_cleared 0) rfl).2.2 (by decide)⟩

/-- C5: for every status table and every received report whose first byte is
not 0x03 or whose reported length is below 5, whatever else the receive buffer
holds, `HID_EP2_OUT` leaves the whole status table unchanged. -/
theorem HID_EP2_OUT_ignored (m a len : Nat) (buf : Nat → Nat) (d : Device)
    (h : buf 0 ≠ 0x03 ∨ len < 5) :
    (HID_EP2_OUT m a len buf d).statuses = d.statuses := by
  rw [HID_EP2_OUT_statuses]
  have hn : ¬ (len % 256 ≥ 5 ∧ buf 0 = 0x03) := by
    rintro ⟨h5, h3⟩
    rcases h with h | h
    · exact h h3
    · have : len % 256 ≤ len := Nat.mod_le _ _
      omega
  simp only [hn, if_false]

theorem HID_EP2_OUT_ignored_witness :
    (HID_EP2_OUT 0x0C 0 2 (report_buffer [0x03, 9, 7, 7, 7])
        (button_boot all_cleared 0)).statuses = (button_boot all_cleared 0).statuses
    ∧ (HID_EP2_OUT 0x0C 0 5 (report_buffer [0x04, 9, 7, 7, 7])
        (button_boot all_cleared 0)).statuses = (button_boot all_cleared 0).statuses :=
  ⟨HID_EP2_OUT_ignored 0x0C 0 2 (report_buffer [0x03, 9, 7, 7, 7])
      (button_boot all_cleared 0) (Or.inr (by decide)),
   HID_EP2_OUT_ignored 0x0C 0 5 (report_buffer [0x04, 9, 7, 7, 7])
      (button_boot all_cleared 0) (Or.inl (by decide))⟩

/-- C6, as stated, fails: a report of reported length 6 (not 5) with first byte
0x03 and index 0 is decoded, and slot 0 of the all-cleared table becomes
(255, 0, 0) with lifetime 5000. -/
theorem HID_EP2_OUT_length_six_counterexample :
    (6 : Nat) ≠ 5
    ∧ (button_boot all_cleared 0).statuses ⟨0, by decide⟩ = ⟨0, 0, 0, 0⟩
    ∧ (HID_EP2_OUT 0x0C 0 6 (report_buffer [0x03, 0, 255, 0, 0, 0])
        (button_boot all_cleared 0)).statuses ⟨0, by decide⟩ = ⟨255, 0, 0, 5000⟩
    ∧ (HID_EP2_OUT 0x0C 0 6 (report_buffer [0x03, 0, 255, 0, 0, 0])
        (button_boot all_cleared 0)).statuses ≠ (button_boot all_cleared 0).statuses := by
  refine ⟨by decide, rfl, by decide, fun h => ?_⟩
  have h0 := congrFun h ⟨0, by decide⟩
  revert h0
  decide

/-- C6, amended: the report is recognised when its reported length is at least
5 and its first byte is 0x03. For every status table and every 8-bit reported
length: if the length is below 5 or the first byte is not 0x03 the table is
unchanged; otherwise (length 5..255, first byte 0x03) the table is the one
`set_status` yields for bytes 1..4, bytes after the fifth being ignored. -/
theorem HID_EP2_OUT_length_rule (m a len : Nat) (buf : Nat → Nat) (d : Device)
    (h8 : len < 256) :
    (HID_EP2_OUT m a len buf d).statuses
      = if len < 5 ∨ buf 0 ≠ 0x03 then d.statuses
        else set_status d.statuses (buf 1) (buf 2) (buf 3) (buf 4) := by
  rw [HID_EP2_OUT_statuses, Nat.mod_eq_of_lt h8]
  by_cases h : len < 5 ∨ buf 0 ≠ 0x03
  · have hn : ¬ (len ≥ 5 ∧ buf 0 = 0x03) := by
      rintro ⟨h5, h3⟩
      rcases h with h | h
      · omega
      · exact h h3
    rw [if_neg hn, if_pos h]
  · have hp : len ≥ 5 ∧ buf 0 = 0x03 := by
      constructor
      · by_contra hc; exact h (Or.inl (by omega))
      · by_contra hc; exact h (Or.inr hc)
    rw [if_pos hp, if_neg h]

theorem HID_EP2_OUT_length_rule_witness :
    (6 : Nat) < 256
    ∧ (HID_EP2_OUT 0x0C 0 6 (report_buffer [0x03, 0, 255, 0, 0, 0])
        (button_boot all_cleared 0)).statuses = set_status all_cleared 0 255 0 0 :=
  ⟨by decide,
   (HID_EP2_OUT_length_rule 0x0C 0 6 (report_buffer [0x03, 0, 255, 0, 0, 0])
      (button_boot all_cleared 0) (by decide)).trans rfl⟩

/-! ## Invariants of the status table -/

theorem TableCall.apply_slot (statuses : Statuses) (c : TableCall) (j : Fin LED_COUNT) :
    c.apply statuses j
      = match c with
        | .set_status index r g b =>
            if j.val = index then ⟨r, g, b, STATUS_TIMEOUT_MS⟩ else statuses j
        | .clear_status index => if j.val = index then ⟨0, 0, 0, 0⟩ else statuses j
        | .update_timeouts e => decay_slot e (statuses j) := by
  cases c with
  | set_status index r g b => exact set_status_apply statuses index r g b j
  | clear_status index => exact clear_status_apply statuses index j
  | update_timeouts e => exact update_timeouts_apply e statuses j

/-- A property of single slots that holds for a cleared slot, for every slot
written by a `set_status` of the history, and is kept by the decay of one slot,
holds for every slot after the history. -/
theorem foldl_calls_slots (P : LedStatus → Prop) (calls : List TableCall)
    (hclear : P ⟨0, 0, 0, 0⟩)
    (hset : ∀ index r g b, TableCall.set_status index r g b ∈ calls →
      P ⟨r, g, b, STATUS_TIMEOUT_MS⟩)
    (hdecay : ∀ e s, P s → P (decay_slot e s))
    (statuses : Statuses) (hs : ∀ j, P (statuses j)) :
    ∀ j, P (calls.foldl TableCall.apply statuses j) := by
  induction calls generalizing statuses with
  | nil => exact hs
  | cons c rest ih =>
    rw [List.foldl_cons]
    apply ih (fun index r g b hm => hset index r g b (List.mem_cons_of_mem _ hm))
    intro j
    rw [TableCall.apply_slot]
    cases c with
    | set_status index r g b =>
      by_cases hj : j.val = index
      · simp only [hj, if_true]
        exact hset index r g b (List.mem_cons_self _ _)
      · simp only [hj, if_false]; exact hs j
    | clear_status index =>
      by_cases hj : j.val = index
      · simp only [hj, if_true]; exact hclear
      · simp only [hj, if_false]; exact hs j
    | update_timeouts e => exact hdecay e _ (hs j)

theorem decay_slot_sub (e : Nat) (s : LedStatus) (h0 : s.remaining_ms ≠ 0)
    (hlt : e < s.remaining_ms) (h16 : s.remaining_ms < 65536) :
    decay_slot e s = { s with remaining_ms := s.remaining_ms - e } := by
  unfold decay_slot
  have hnle : ¬ s.remaining_ms ≤ e := Nat.not_le.mpr hlt
  simp only [h0, hnle, if_false]
  have h1 : s.remaining_ms + 65536 - e = (s.remaining_ms - e) + 65536 := by omega
  rw [h1, Nat.add_mod_right, Nat.mod_eq_of_lt (by omega)]

/-- After any history, every slot has lifetime at most 5000, and a slot with
lifetime 0 is entirely zero. -/
theorem run_calls_bounded (calls : List TableCall) (j : Fin LED_COUNT) :
    (run_calls calls j).remaining_ms ≤ STATUS_TIMEOUT_MS
    ∧ ((run_calls calls j).remaining_ms = 0 → run_calls calls j = ⟨0, 0, 0, 0⟩) := by
  refine foldl_calls_slots
    (fun s => s.remaining_ms ≤ STATUS_TIMEOUT_MS ∧ (s.remaining_ms = 0 → s = ⟨0, 0, 0, 0⟩))
    calls ⟨by simp, fun _ => rfl⟩ ?_ ?_ all_cleared ?_ j
  · intro index r g b _
    exact ⟨Nat.le_refl _, fun h => absurd h (by simp [STATUS_TIMEOUT_MS])⟩
  · rintro e s ⟨hle, hz⟩
    by_cases h0 : s.remaining_ms = 0
    · have : decay_slot e s = s := by simp [decay_slot, h0]
      rw [this]; exact ⟨hle, hz⟩
    · by_cases h1 : s.remaining_ms ≤ e
      · have : decay_slot e s = ⟨0, 0, 0, 0⟩ := by simp [decay_slot, h0, h1]
        rw [this]; exact ⟨by simp, fun _ => rfl⟩
      · have h16 : s.remaining_ms < 65536 := by
          have : s.remaining_ms ≤ 5000 := hle
          omega
        rw [decay_slot_sub e s h0 (Nat.lt_of_not_le h1) h16]
        constructor
        · exact Nat.le_trans (Nat.sub_le _ _) hle
        · intro hz2
          have : s.remaining_ms - e = 0 := hz2
          omega
  · intro j; exact ⟨by simp [all_cleared], fun _ => rfl⟩

/-- C7, as stated, fails: after the single call `set_status(0, 0, 0, 0)` on the
all-cleared table, slot 0 has color (0,0,0) and lifetime 5000, so "lifetime is
0 if and only if the color is (0,0,0)" does not hold for it. -/
theorem lifetime_zero_iff_off_counterexample :
    run_calls [TableCall.set_status 0 0 0 0] ⟨0, by decide⟩ = ⟨0, 0, 0, 5000⟩
    ∧ ¬ ((run_calls [TableCall.set_status 0 0 0 0] ⟨0, by decide⟩).remaining_ms = 0
          ↔ ((run_calls [TableCall.set_status 0 0 0 0] ⟨0, by decide⟩).r = 0
            ∧ (run_calls [TableCall.set_status 0 0 0 0] ⟨0, by decide⟩).g = 0
            ∧ (run_calls [TableCall.set_status 0 0 0 0] ⟨0, by decide⟩).b = 0)) := by
  decide

/-- C7, amended: in every state reached from the all-cleared table by a
sequence of `set_status` calls whose color is not (0,0,0), `clear_status` calls
and `update_timeouts` calls (other arguments arbitrary), every slot has
lifetime 0 if and only if its color is (0,0,0). -/
theorem lifetime_zero_iff_off_of_lit (calls : List TableCall)
    (hlit : ∀ c ∈ calls, c.lit) (j : Fin LED_COUNT) :
    (run_calls calls j).remaining_ms = 0
      ↔ ((run_calls calls j).r = 0 ∧ (run_calls calls j).g = 0 ∧ (run_calls calls j).b = 0) := by
  refine ⟨fun h => ?_, ?_⟩
  · rw [(run_calls_bounded calls j).2 h]; exact ⟨rfl, rfl, rfl⟩
  · refine foldl_calls_slots
      (fun s => (s.r = 0 ∧ s.g = 0 ∧ s.b = 0) → s.remaining_ms = 0)
      calls (fun _ => rfl) ?_ ?_ all_cleared (fun _ _ => rfl) j
    · intro index r g b hm hoff
      exact absurd hoff (hlit _ hm)
    · intro e s hs hoff
      unfold decay_slot at hoff ⊢
      by_cases h0 : s.remaining_ms = 0
      · simp only [h0, if_true]
      · by_cases h1 : s.remaining_ms ≤ e
        · simp only [h0, h1, if_true, if_false]
        · simp only [h0, h1, if_false] at hoff
          exact absurd (hs hoff) h0

theorem lifetime_zero_iff_off_of_lit_witness :
    (∀ c ∈ [TableCall.set_status 3 255 0 0, TableCall.update_timeouts 20,
        TableCall.set_status 4 0 0 1, TableCall.clear_status 4,
        TableCall.update_timeouts 4980], c.lit)
    ∧ ((run_calls [TableCall.set_status 3 255 0 0, TableCall.update_timeouts 20,
          TableCall.set_status 4 0 0 1, TableCall.clear_status 4,
          TableCall.update_timeouts 4980] ⟨3, by decide⟩).remaining_ms = 0
        ↔ ((run_calls [TableCall.set_status 3 255 0 0, TableCall.update_timeouts 20,
              TableCall.set_status 4 0 0 1, TableCall.clear_status 4,
              TableCall.update_timeouts 4980] ⟨3, by decide⟩).r = 0
          ∧ (run_calls [TableCall.set_status 3 255 0 0, TableCall.update_timeouts 20,
              TableCall.set_status 4 0 0 1, TableCall.clear_status 4,
              TableCall.update_timeouts 4980] ⟨3, by decide⟩).g = 0
          ∧ (run_calls [TableCall.set_status 3 255 0 0, TableCall.update_timeouts 20,
              TableCall.set_status 4 0 0 1, TableCall.clear_status 4,
              TableCall.update_timeouts 4980] ⟨3, by decide⟩).b = 0)) :=
  ⟨by decide, lifetime_zero_iff_off_of_lit _ (by decide) ⟨3, by decide⟩⟩

/-- C8: in every state reached from the all-cleared table by any sequence of
`set_status`, `clear_status` and `update_timeouts` calls, a slot whose lifetime is
0 has color (0,0,0) (it is entirely zero); a further call takes a nonzero
lifetime to 0 only if it is `clear_status` of that slot or an `update_timeouts`
whose elapsed value reaches the lifetime (the branch that calls
`clear_status`); and whenever the elapsed value is below the lifetime, the
subtraction in `update_timeouts` leaves a nonzero lifetime. -/
theorem lifetime_zero_only_by_clear (calls : List TableCall) (j : Fin LED_COUNT) :
    ((run_calls calls j).remaining_ms = 0 → run_calls calls j = ⟨0, 0, 0, 0⟩)
    ∧ (∀ c : TableCall, (run_calls calls j).remaining_ms ≠ 0 →
        (c.apply (run_calls calls) j).remaining_ms = 0 →
        (c = TableCall.clear_status j.val
          ∨ ∃ e, c = TableCall.update_timeouts e ∧ (run_calls calls j).remaining_ms ≤ e)
        ∧ c.apply (run_calls calls) j = ⟨0, 0, 0, 0⟩)
    ∧ (∀ e, e < (run_calls calls j).remaining_ms →
        (update_timeouts e (run_calls calls) j).remaining_ms ≠ 0) := by
  obtain ⟨hle, hz⟩ := run_calls_bounded calls j
  have h16 : (run_calls calls j).remaining_ms < 65536 := by
    have : (run_calls calls j).remaining_ms ≤ 5000 := hle
    omega
  have hsub : ∀ e, e < (run_calls calls j).remaining_ms →
      (update_timeouts e (run_calls calls) j).remaining_ms ≠ 0 := by
    intro e he
    have h0 : (run_calls calls j).remaining_ms ≠ 0 := by omega
    rw [update_timeouts_apply, decay_slot_sub e _ h0 he h16]
    show (run_calls calls j).remaining_ms - e ≠ 0
    omega
  refine ⟨hz, fun c h0 hc => ?_, hsub⟩
  have hnext : c.apply (run_calls calls) j = ⟨0, 0, 0, 0⟩ := by
    have := (run_calls_bounded (calls ++ [c]) j).2
    simp only [run_calls, List.foldl_append, List.foldl_cons, List.foldl_nil] at this
    exact this hc
  refine ⟨?_, hnext⟩
  cases c with
  | set_status index r g b =>
    exfalso
    have hc2 : (set_status (run_calls calls) index r g b j).remaining_ms = 0 := hc
    rw [set_status_apply] at hc2
    by_cases hj : j.val = index
    · simp [hj, STATUS_TIMEOUT_MS] at hc2
    · simp only [hj, if_false] at hc2; exact h0 hc2
  | clear_status index =>
    left
    have hc2 : (clear_status (run_calls calls) index j).remaining_ms = 0 := hc
    rw [clear_status_apply] at hc2
    by_cases hj : j.val = index
    · rw [hj]
    · simp only [hj, if_false] at hc2; exact absurd hc2 h0
  | update_timeouts e =>
    right
    refine ⟨e, rfl, ?_⟩
    by_contra hlt
    exact hsub e (Nat.lt_of_not_le hlt) hc

/-- C9: for every status table with 16-bit lifetimes (reachable or not),
`update_timeouts(0)` returns the table unchanged, and so does any number of
repeated `update_timeouts(0)` calls. -/
theorem update_timeouts_zero (statuses : Statuses)
    (h16 : ∀ j, (statuses j).remaining_ms < 65536) :
    update_timeouts 0 statuses = statuses
    ∧ ∀ n : Nat, (update_timeouts 0)^[n] statuses = statuses := by
  have h1 : update_timeouts 0 statuses = statuses := by
    funext j
    rw [update_timeouts_apply]
    unfold decay_slot
    by_cases h0 : (statuses j).remaining_ms = 0
    · simp [h0]
    · have hn : ¬ (statuses j).remaining_ms ≤ 0 := by omega
      simp only [h0, hn, if_false]
      have : ((statuses j).remaining_ms + 65536 - 0) % 65536 = (statuses j).remaining_ms := by
        rw [Nat.sub_zero, Nat.add_mod_right, Nat.mod_eq_of_lt (h16 j)]
      rw [this]
  refine ⟨h1, fun n => ?_⟩
  induction n with
  | zero => rfl
  | succ k ih => rw [Function.iterate_succ_apply, h1, ih]

theorem update_timeouts_zero_witness :
    (∀ j, (set_status (set_status all_cleared 3 255 0 0) 7 0 0 0 j).remaining_ms < 65536)
    ∧ update_timeouts 0 (set_status (set_status all_cleared 3 255 0 0) 7 0 0 0)
        = set_status (set_status all_cleared 3 255 0 0) 7 0 0 0
    ∧ ∀ n : Nat, (update_timeouts 0)^[n] (set_status (set_status all_cleared 3 255 0 0) 7 0 0 0)
        = set_status (set_status all_cleared 3 255 0 0) 7 0 0 0 :=
  ⟨by decide, update_timeouts_zero _ (by decide)⟩

/-! ## The reboot button -/

theorem run_button_append (levels : List Nat) (pin : Nat) (d : Device) :
    run_button (levels ++ [pin]) d = handle_reboot_button pin (run_button levels d) := by
  simp [run_button, List.foldl_append]

theorem handle_reboot_button_last (pin : Nat) (d : Device) :
    (handle_reboot_button pin d).button_last = if pin = 0 then 1 else 0 := by
  unfold handle_reboot_button
  rfl

theorem handle_reboot_button_trace (pin : Nat) (d : Device) :
    (handle_reboot_button pin d).trace
      = if pin = 0 ∧ d.button_last = 0 then d.trace ++ ctrl_alt_del_effects else d.trace := by
  unfold handle_reboot_button send_ctrl_alt_del
  by_cases hp : pin = 0
  · by_cases hb : d.button_last = 0
    · simp [hp, hb]
    · simp [hp, hb]
  · simp [hp]

theorem press_edges_append (levels : List Nat) (pin : Nat) :
    press_edges (levels ++ [pin])
      = press_edges levels
        + if pin = 0 ∧ (levels.length = 0 ∨ levels.getD (levels.length - 1) 1 ≠ 0)
            then 1 else 0 := by
  unfold press_edges
  rw [List.length_append, List.length_singleton, List.range_succ, List.filter_append,
    List.length_append]
  congr 1
  · congr 1
    apply List.filter_congr
    intro k hk
    have hk2 : k < levels.length := List.mem_range.mp hk
    have e1 : (levels ++ [pin]).getD k 1 = levels.getD k 1 :=
      List.getD_append levels [pin] 1 k hk2
    have e2 : (levels ++ [pin]).getD (k - 1) 1 = levels.getD (k - 1) 1 :=
      List.getD_append levels [pin] 1 (k - 1) (by omega)
    rw [e1, e2]
  · have e1 : (levels ++ [pin]).getD levels.length 1 = pin := by
      rw [List.getD_append_right levels [pin] 1 levels.length (Nat.le_refl _)]
      simp
    have single : ∀ (p : Nat → Bool) (k : Nat),
        ([k].filter p).length = if p k = true then 1 else 0 := by
      intro p k
      by_cases h : p k = true
      · simp [h]
      · simp [h]
    rw [single, e1]
    by_cases hl : levels.length = 0
    · by_cases hp : pin = 0 <;> simp [hp, hl]
    · have e2 : (levels ++ [pin]).getD (levels.length - 1) 1
          = levels.getD (levels.length - 1) 1 :=
        List.getD_append levels [pin] 1 (levels.length - 1) (by omega)
      rw [e2]
      by_cases hp : pin = 0 <;> simp [hp, hl]

/-- After feeding `levels` from power-on: the trace holds one Ctrl+Alt+Del
sequence per press edge, and `button_last` is 0 exactly when the last level fed
(if any) was idle. -/
theorem run_button_invariant (statuses : Statuses) (ctrl : Nat) (levels : List Nat) :
    (run_button levels (button_boot statuses ctrl)).trace
        = (List.replicate (press_edges levels) ctrl_alt_del_effects).flatten
    ∧ ((run_button levels (button_boot statuses ctrl)).button_last = 0
        ↔ (levels.length = 0 ∨ levels.getD (levels.length - 1) 1 ≠ 0)) := by
  induction levels using List.reverseRecOn with
  | nil => simp [run_button, button_boot, press_edges]
  | append_singleton levels pin ih =>
    obtain ⟨iht, ihb⟩ := ih
    rw [run_button_append]
    constructor
    · rw [handle_reboot_button_trace, press_edges_append, iht]
      by_cases hc : pin = 0 ∧ (levels.length = 0 ∨ levels.getD (levels.length - 1) 1 ≠ 0)
      · have hc2 : pin = 0 ∧ (run_button levels (button_boot statuses ctrl)).button_last = 0 :=
          ⟨hc.1, ihb.mpr hc.2⟩
        rw [if_pos hc, if_pos hc2, List.replicate_add, List.flatten_append]
        simp
      · have hc2 : ¬ (pin = 0 ∧ (run_button levels (button_boot statuses ctrl)).button_last = 0) :=
          fun h => hc ⟨h.1, ihb.mp h.2⟩
        rw [if_neg hc, if_neg hc2, Nat.add_zero]
    · rw [handle_reboot_button_last]
      have e1 : (levels ++ [pin]).getD ((levels ++ [pin]).length - 1) 1 = pin := by
        rw [List.length_append, List.length_singleton, Nat.add_sub_cancel,
          List.getD_append_right levels [pin] 1 levels.length (Nat.le_refl _)]
        simp
      rw [e1]
      by_cases hp : pin = 0 <;> simp [hp]

/-- C10: starting from `button_last = 0`, for every finite sequence of pin
levels fed one per call to `handle_reboot_button` (0 = pressed, nonzero = idle),
the trace consists of exactly as many Ctrl+Alt+Del sequences as there are
positions where the level is pressed and the level before it (the initial
state at position 0) is not; after each call `button_last` is 1 if the level
just read is pressed and 0 otherwise; and for [idle, idle, pressed, pressed,
idle] nothing is sent in the first two calls, one sequence is sent in the third
call, and nothing more in the last two. -/
theorem handle_reboot_button_edges (statuses : Statuses) (ctrl : Nat) :
    (∀ levels : List Nat,
      (run_button levels (button_boot statuses ctrl)).trace
        = (List.replicate (press_edges levels) ctrl_alt_del_effects).flatten)
    ∧ (∀ (levels : List Nat) (pin : Nat),
      (run_button (levels ++ [pin]) (button_boot statuses ctrl)).button_last
        = if pin = 0 then 1 else 0)
    ∧ (run_button [1, 1] (button_boot statuses ctrl)).trace = []
    ∧ (run_button [1, 1, 0] (button_boot statuses ctrl)).trace = ctrl_alt_del_effects
    ∧ (run_button [1, 1, 0, 0] (button_boot statuses ctrl)).trace = ctrl_alt_del_effects
    ∧ (run_button [1, 1, 0, 0, 1] (button_boot statuses ctrl)).trace = ctrl_alt_del_effects
    ∧ press_edges [1, 1, 0, 0, 1] = 1 := by
  refine ⟨fun levels => (run_button_invariant statuses ctrl levels).1, fun levels pin => ?_,
    rfl, rfl, rfl, rfl, by decide⟩
  rw [run_button_append, handle_reboot_button_last]

/-! ## Expiry after 250 ticks of 20 ms -/

theorem decay_slot_twenty_iterate (r g b k : Nat) :
    (decay_slot 20)^[k] ⟨r, g, b, 5000⟩
      = if k < 250 then ⟨r, g, b, 5000 - 20 * k⟩ else ⟨0, 0, 0, 0⟩ := by
  induction k with
  | zero => simp
  | succ k ih =>
    rw [Function.iterate_succ_apply', ih]
    by_cases hk : k < 250
    · rw [if_pos hk]
      by_cases hlast : k = 249
      · subst hlast
        simp [decay_slot]
      · have hk1 : k + 1 < 250 := by omega
        rw [if_pos hk1]
        have h0 : (⟨r, g, b, 5000 - 20 * k⟩ : LedStatus).remaining_ms ≠ 0 := by
          show 5000 - 20 * k ≠ 0
          omega
        have hlt : 20 < (⟨r, g, b, 5000 - 20 * k⟩ : LedStatus).remaining_ms := by
          show 20 < 5000 - 20 * k
          omega
        have h16 : (⟨r, g, b, 5000 - 20 * k⟩ : LedStatus).remaining_ms < 65536 := by
          show 5000 - 20 * k < 65536
          omega
        rw [decay_slot_sub 20 _ h0 hlt h16]
        show (⟨r, g, b, 5000 - 20 * k - 20⟩ : LedStatus) = ⟨r, g, b, 5000 - 20 * (k + 1)⟩
        have : 5000 - 20 * k - 20 = 5000 - 20 * (k + 1) := by omega
        rw [this]
    · have hk1 : ¬ k + 1 < 250 := by omega
      rw [if_neg hk, if_neg hk1]
      simp [decay_slot]

theorem foldl_spares_slot (i : Nat) (h : i < LED_COUNT) (calls : List TableCall)
    (hsp : ∀ c ∈ calls, c.spares i) (statuses : Statuses) :
    calls.foldl TableCall.apply statuses ⟨i, h⟩
      = (decay_slot 20)^[tick_count calls] (statuses ⟨i, h⟩) := by
  induction calls generalizing statuses with
  | nil => rfl
  | cons c rest ih =>
    have hc : c.spares i := hsp c (List.mem_cons_self _ _)
    rw [List.foldl_cons, ih (fun c2 hm => hsp c2 (List.mem_cons_of_mem _ hm)),
      TableCall.apply_slot]
    cases c with
    | set_status index r g b =>
      have hne : ¬ i = index := fun e => hc e.symm
      simp [tick_count, hne]
    | clear_status index =>
      have hne : ¬ i = index := fun e => hc e.symm
      simp [tick_count, hne]
    | update_timeouts e =>
      have he : e = 20 := hc
      subst he
      simp only [tick_count, Function.iterate_succ_apply]

theorem update_timeouts_iterate_apply (e k : Nat) (statuses : Statuses) (j : Fin LED_COUNT) :
    (update_timeouts e)^[k] statuses j = (decay_slot e)^[k] (statuses j) := by
  induction k generalizing statuses with
  | zero => rfl
  | succ k ih =>
    rw [Function.iterate_succ_apply, ih, update_timeouts_apply, Function.iterate_succ_apply]

theorem foldl_clear_status_apply (l : List Nat) (statuses : Statuses) (j : Fin LED_COUNT) :
    l.foldl clear_status statuses j = if j.val ∈ l then ⟨0, 0, 0, 0⟩ else statuses j := by
  induction l generalizing statuses with
  | nil => simp
  | cons a l ih =>
    rw [List.foldl_cons, ih, clear_status_apply]
    by_cases hl : j.val ∈ l
    · simp [hl]
    · by_cases ha : j.val = a
      · simp [ha]
      · simp [hl, ha]

theorem apply_status_strip_statuses (d : Device) :
    (apply_status_strip d).statuses = d.statuses := rfl

theorem main_init_statuses (NEO_MAX : Nat) (d : Device) :
    (main_init NEO_MAX d).statuses
      = set_status all_cleared 0 (NEO_MAX % 256) (NEO_MAX / 3 % 256) 0 := by
  have hclr : (List.range LED_COUNT).foldl clear_status d.statuses = all_cleared := by
    funext j
    rw [foldl_clear_status_apply]
    have : j.val ∈ List.range LED_COUNT := List.mem_range.mpr j.isLt
    simp [this, all_cleared]
  show set_status ((List.range LED_COUNT).foldl clear_status d.statuses) 0
      (boot_color NEO_MAX).r (boot_color NEO_MAX).g (boot_color NEO_MAX).b = _
  rw [hclr]
  rfl

theorem handle_reboot_button_statuses (pin : Nat) (d : Device) :
    (handle_reboot_button pin d).statuses = d.statuses := by
  unfold handle_reboot_button send_ctrl_alt_del
  by_cases hp : pin = 0
  · by_cases hb : d.button_last = 0
    · simp [hp, hb]
    · simp [hp, hb]
  · simp [hp]

theorem main_loop_iteration_statuses (pin : Nat) (d : Device) :
    (main_loop_iteration pin d).statuses = update_timeouts LOOP_DELAY_MS d.statuses := by
  simp only [main_loop_iteration, emit, apply_status_strip, handle_reboot_button_statuses]

theorem main_loop_cons (pin : Nat) (rest : List Nat) (d : Device) :
    main_loop (pin :: rest) d = main_loop rest (main_loop_iteration pin d) := by
  simp only [main_loop, List.foldl_cons]

theorem main_loop_statuses (pins : List Nat) (d : Device) :
    (main_loop pins d).statuses = (update_timeouts LOOP_DELAY_MS)^[pins.length] d.statuses := by
  induction pins generalizing d with
  | nil => simp only [main_loop, List.foldl_nil, List.length_nil, Function.iterate_zero, id_eq]
  | cons pin rest ih =>
    rw [main_loop_cons, ih, main_loop_iteration_statuses, List.length_cons,
      Function.iterate_succ_apply]

/-- C11: for every index below 10 and every color (r, g, b): after
`set_status(index, r, g, b)` and then any calls that are `update_timeouts(20)` or
a set / clear of another slot, of which `k` are `update_timeouts(20)` (in
particular after `k` consecutive `update_timeouts(20)` calls), slot `index` holds
(r, g, b) with lifetime `5000 - 20 * k` when `k < 250` and is (0,0,0) with
lifetime 0 when `k >= 250`. The boot slot 0 behaves the same over the passes of
the main loop: after `n` passes it holds the boot color with lifetime
`5000 - 20 * n` when `n < 250` and is cleared when `n >= 250`. -/
theorem slot_expires_at_tick_250 (statuses : Statuses) (index r g b : Nat) (h : index < 10) :
    (∀ calls : List TableCall, (∀ c ∈ calls, c.spares index) →
      calls.foldl TableCall.apply (set_status statuses index r g b) ⟨index, h⟩
        = if tick_count calls < 250 then ⟨r, g, b, 5000 - 20 * tick_count calls⟩
          else ⟨0, 0, 0, 0⟩)
    ∧ (∀ k : Nat,
      (update_timeouts 20)^[k] (set_status statuses index r g b) ⟨index, h⟩
        = if k < 250 then ⟨r, g, b, 5000 - 20 * k⟩ else ⟨0, 0, 0, 0⟩)
    ∧ (∀ (NEO_MAX : Nat) (d : Device) (pins : List Nat),
      (main_loop pins (main_init NEO_MAX d)).statuses ⟨0, by decide⟩
        = if pins.length < 250
          then ⟨NEO_MAX % 256, NEO_MAX / 3 % 256, 0, 5000 - 20 * pins.length⟩
          else ⟨0, 0, 0, 0⟩) := by
  have hset : set_status statuses index r g b ⟨index, h⟩ = ⟨r, g, b, 5000⟩ := by
    rw [set_status_apply]; simp [STATUS_TIMEOUT_MS]
  refine ⟨fun calls hsp => ?_, fun k => ?_, fun NEO_MAX d pins => ?_⟩
  · rw [foldl_spares_slot index h calls hsp, hset, decay_slot_twenty_iterate]
  · rw [update_timeouts_iterate_apply, hset, decay_slot_twenty_iterate]
  · rw [main_loop_statuses, main_init_statuses]
    show (update_timeouts 20)^[pins.length] _ _ = _
    rw [update_timeouts_iterate_apply]
    have hboot : set_status all_cleared 0 (NEO_MAX % 256) (NEO_MAX / 3 % 256) 0 ⟨0, by decide⟩
        = ⟨NEO_MAX % 256, NEO_MAX / 3 % 256, 0, 5000⟩ := by
      rw [set_status_apply]; simp [STATUS_TIMEOUT_MS]
    rw [hboot, decay_slot_twenty_iterate]

theorem slot_expires_at_tick_250_witness :
    (update_timeouts 20)^[249] (set_status all_cleared 3 255 0 0) ⟨3, by decide⟩
        = ⟨255, 0, 0, 20⟩
    ∧ (update_timeouts 20)^[250] (set_status all_cleared 3 255 0 0) ⟨3, by decide⟩
        = ⟨0, 0, 0, 0⟩
    ∧ [TableCall.update_timeouts 20, TableCall.set_status 4 1 1 1,
        TableCall.update_timeouts 20].foldl TableCall.apply
          (set_status all_cleared 3 255 0 0) ⟨3, by decide⟩ = ⟨255, 0, 0, 4960⟩ :=
  ⟨((slot_expires_at_tick_250 all_cleared 3 255 0 0 (by decide)).2.1 249).trans (by decide),
   ((slot_expires_at_tick_250 all_cleared 3 255 0 0 (by decide)).2.1 250).trans (by decide),
   ((slot_expires_at_tick_250 all_cleared 3 255 0 0 (by decide)).1
      [TableCall.update_timeouts 20, TableCall.set_status 4 1 1 1,
        TableCall.update_timeouts 20] (by decide)).trans (by decide)⟩

/-! ## Start-up -/

theorem finRange_led_count :
    List.finRange LED_COUNT
      = [⟨0, by decide⟩, ⟨1, by decide⟩, ⟨2, by decide⟩, ⟨3, by decide⟩, ⟨4, by decide⟩,
         ⟨5, by decide⟩, ⟨6, by decide⟩, ⟨7, by decide⟩, ⟨8, by decide⟩, ⟨9, by decide⟩] := by
  decide

theorem apply_status_strip_trace (d : Device) :
    (apply_status_strip d).trace = d.trace ++ frame_effects d.statuses := by
  unfold apply_status_strip frame_effects
  rw [finRange_led_count]
  simp

theorem main_init_trace (NEO_MAX : Nat) (d : Device) :
    (main_init NEO_MAX d).trace
      = d.trace ++ setup_effects ++ frame_effects (main_init NEO_MAX d).statuses := by
  have hs : (main_init NEO_MAX d).statuses
      = set_status ((List.range LED_COUNT).foldl clear_status d.statuses) 0
          (boot_color NEO_MAX).r (boot_color NEO_MAX).g (boot_color NEO_MAX).b := by
    simp only [main_init, emit, apply_status_strip]
  rw [hs]
  unfold main_init
  simp only [apply_status_strip_trace, emit, setup_effects]
  simp

/-- C12: whatever the device state before start-up, and for every 8-bit value
of the constant `NEO_MAX`, after the initialisation part of `main` slot 0 holds
(NEO_MAX, NEO_MAX / 3 truncated to 8 bits, 0) with lifetime 5000, every slot
1..9 is (0,0,0) with lifetime 0, and the calls made are the six setup calls
followed by exactly one frame (one `NEO_latch`) showing this table. -/
theorem main_init_boot (NEO_MAX : Nat) (d : Device) (h8 : NEO_MAX < 256) :
    (main_init NEO_MAX d).statuses ⟨0, by decide⟩ = ⟨NEO_MAX, NEO_MAX / 3 % 256, 0, 5000⟩
    ∧ (∀ j : Fin LED_COUNT, j.val ≠ 0 → (main_init NEO_MAX d).statuses j = ⟨0, 0, 0, 0⟩)
    ∧ (main_init NEO_MAX d).trace
        = d.trace ++ setup_effects ++ frame_effects (main_init NEO_MAX d).statuses
    ∧ (setup_effects ++ frame_effects (main_init NEO_MAX d).statuses).count Effect.NEO_latch
        = 1 := by
  refine ⟨?_, fun j hj => ?_, main_init_trace NEO_MAX d, ?_⟩
  · rw [main_init_statuses, set_status_apply, Nat.mod_eq_of_lt h8]
    simp [STATUS_TIMEOUT_MS]
  · rw [main_init_statuses, set_status_apply]
    simp [hj, all_cleared]
  · simp [setup_effects, frame_effects, List.count_cons]

theorem main_init_boot_witness :
    (main_init 255 (button_boot (set_status all_cleared 4 9 9 9) 0)).statuses ⟨0, by decide⟩
        = ⟨255, 255 / 3 % 256, 0, 5000⟩
    ∧ (∀ j : Fin LED_COUNT, j.val ≠ 0 →
        (main_init 255 (button_boot (set_status all_cleared 4 9 9 9) 0)).statuses j
          = ⟨0, 0, 0, 0⟩) :=
  ⟨(main_init_boot 255 (button_boot (set_status all_cleared 4 9 9 9) 0) (by decide)).1,
   (main_init_boot 255 (button_boot (set_status all_cleared 4 9 9 9) 0) (by decide)).2.1⟩

/-! ## Clearing -/

/-- C13: for every table reached from the all-cleared table by `set_status`,
`clear_status` and `update_timeouts` calls, and every elapsed value that is at
least every slot's remaining lifetime, one `update_timeouts` pass leaves every
one of the 10 slots at (0,0,0) with lifetime 0. -/
theorem update_timeouts_clears_all (calls : List TableCall) (e : Nat)
    (he : ∀ j, (run_calls calls j).remaining_ms ≤ e) :
    ∀ j, update_timeouts e (run_calls calls) j = ⟨0, 0, 0, 0⟩ := by
  intro j
  rw [update_timeouts_apply]
  unfold decay_slot
  by_cases h0 : (run_calls calls j).remaining_ms = 0
  · rw [if_pos h0]
    exact (run_calls_bounded calls j).2 h0
  · rw [if_neg h0, if_pos (he j)]

theorem update_timeouts_clears_all_witness :
    update_timeouts 5000
        (run_calls [TableCall.set_status 3 255 0 0, TableCall.update_timeouts 20,
          TableCall.set_status 0 1 2 3]) ⟨3, by decide⟩ = ⟨0, 0, 0, 0⟩
    ∧ update_timeouts 5000
        (run_calls [TableCall.set_status 3 255 0 0, TableCall.update_timeouts 20,
          TableCall.set_status 0 1 2 3]) ⟨0, by decide⟩ = ⟨0, 0, 0, 0⟩ :=
  ⟨update_timeouts_clears_all
    [TableCall.set_status 3 255 0 0, TableCall.update_timeouts 20,
      TableCall.set_status 0 1 2 3] 5000 (by decide) ⟨3, by decide⟩,
   update_timeouts_clears_all
    [TableCall.set_status 3 255 0 0, TableCall.update_timeouts 20,
      TableCall.set_status 0 1 2 3] 5000 (by decide) ⟨0, by decide⟩⟩

/-- C14: for every table, `clear_status(index)` with `index` below 10 sets slot
`index` to (0,0,0) with lifetime 0 and leaves every other slot unchanged, and
`clear_status(index)` with `index` 10 or more leaves the whole table unchanged
(the guard is the same as in `set_status`). -/
theorem clear_status_spec (statuses : Statuses) (index : Nat) :
    (∀ h : index < 10,
      clear_status statuses index ⟨index, h⟩ = ⟨0, 0, 0, 0⟩
      ∧ ∀ j : Fin LED_COUNT, j.val ≠ index → clear_status statuses index j = statuses j)
    ∧ (10 ≤ index → clear_status statuses index = statuses)
    ∧ (10 ≤ index → ∀ r g b, set_status statuses index r g b = statuses) := by
  refine ⟨fun h => ⟨?_, fun j hj => ?_⟩, fun h => clear_status_of_ge statuses index h,
    fun h r g b => set_status_of_ge statuses index r g b h⟩
  · rw [clear_status_apply]; simp
  · rw [clear_status_apply]; simp [hj]

theorem clear_status_spec_witness :
    (clear_status (set_status (set_status all_cleared 3 255 0 0) 4 1 2 3) 3 ⟨3, by decide⟩
        = ⟨0, 0, 0, 0⟩
      ∧ ∀ j : Fin LED_COUNT, j.val ≠ 3 →
          clear_status (set_status (set_status all_cleared 3 255 0 0) 4 1 2 3) 3 j
            = set_status (set_status all_cleared 3 255 0 0) 4 1 2 3 j)
    ∧ clear_status (set_status (set_status all_cleared 3 255 0 0) 4 1 2 3) 10
        = set_status (set_status all_cleared 3 255 0 0) 4 1 2 3 :=
  ⟨(clear_status_spec (set_status (set_status all_cleared 3 255 0 0) 4 1 2 3) 3).1
      (by decide),
   (clear_status_spec (set_status (set_status all_cleared 3 255 0 0) 4 1 2 3) 10).2.1
      (by decide)⟩

/-! ## Effect sequences -/

/-- C15: for every device state, one call of `apply_status_strip` appends to the
trace exactly 13 effects: `EA = 0`, then for k = 0..9 in ascending order one
`NEO_writeColor` carrying the (r, g, b) of slot k (cleared slots included, as
(0,0,0)), then `EA = 1`, then one `NEO_latch`; the status table and the other
fields are unchanged. -/
theorem apply_status_strip_frame (d : Device) :
    (apply_status_strip d).trace = d.trace ++ frame_effects d.statuses
    ∧ (frame_effects d.statuses).length = 13
    ∧ (frame_effects d.statuses)[0]? = some (Effect.EA_write 0)
    ∧ (∀ k : Fin LED_COUNT,
        (frame_effects d.statuses)[k.val + 1]?
          = some (Effect.NEO_writeColor (d.statuses k).r (d.statuses k).g (d.statuses k).b))
    ∧ (frame_effects d.statuses)[11]? = some (Effect.EA_write 1)
    ∧ (frame_effects d.statuses)[12]? = some Effect.NEO_latch
    ∧ (frame_effects d.statuses).count Effect.NEO_latch = 1
    ∧ (∀ k : Fin LED_COUNT, (d.statuses k).r = 0 → (d.statuses k).g = 0 → (d.statuses k).b = 0 →
        (frame_effects d.statuses)[k.val + 1]? = some (Effect.NEO_writeColor 0 0 0))
    ∧ (apply_status_strip d).statuses = d.statuses
    ∧ (apply_status_strip d).button_last = d.button_last
    ∧ (apply_status_strip d).UEP2_CTRL = d.UEP2_CTRL := by
  have hk : ∀ k : Fin LED_COUNT,
      (frame_effects d.statuses)[k.val + 1]?
        = some (Effect.NEO_writeColor (d.statuses k).r (d.statuses k).g (d.statuses k).b) := by
    intro k
    have hmem : k ∈ List.finRange LED_COUNT := List.mem_finRange k
    rw [finRange_led_count] at hmem
    simp only [List.mem_cons, List.mem_singleton, List.not_mem_nil, or_false] at hmem
    rcases hmem with h | h | h | h | h | h | h | h | h | h <;> subst h <;> rfl
  refine ⟨apply_status_strip_trace d, rfl, rfl, hk, rfl, rfl, ?_, fun k hr hg hb => ?_,
    rfl, rfl, rfl⟩
  · simp [frame_effects, List.count_cons]
  · rw [hk k, hr, hg, hb]

/-- C16: each call of `send_ctrl_alt_del` appends to the trace exactly: press
LEFT_CTRL, press LEFT_ALT, press DELETE, delay 10 ms, release DELETE, release
LEFT_ALT, release LEFT_CTRL, and changes nothing else; the released keys are
the pressed keys in reverse order, and the one delay stands between the last
press and the first release. -/
theorem send_ctrl_alt_del_sequence (d : Device) :
    (send_ctrl_alt_del d).trace
        = d.trace ++
          [ Effect.KBD_press KbdKey.KBD_KEY_LEFT_CTRL,
            Effect.KBD_press KbdKey.KBD_KEY_LEFT_ALT,
            Effect.KBD_press KbdKey.KBD_KEY_DELETE,
            Effect.DLY_ms 10,
            Effect.KBD_release KbdKey.KBD_KEY_DELETE,
            Effect.KBD_release KbdKey.KBD_KEY_LEFT_ALT,
            Effect.KBD_release KbdKey.KBD_KEY_LEFT_CTRL ]
    ∧ pressed_keys ctrl_alt_del_effects
        = [KbdKey.KBD_KEY_LEFT_CTRL, KbdKey.KBD_KEY_LEFT_ALT, KbdKey.KBD_KEY_DELETE]
    ∧ released_keys ctrl_alt_del_effects = (pressed_keys ctrl_alt_del_effects).reverse
    ∧ ctrl_alt_del_effects
        = (pressed_keys ctrl_alt_del_effects).map Effect.KBD_press
          ++ [Effect.DLY_ms 10]
          ++ (released_keys ctrl_alt_del_effects).map Effect.KBD_release
    ∧ (send_ctrl_alt_del d).statuses = d.statuses
    ∧ (send_ctrl_alt_del d).button_last = d.button_last
    ∧ (send_ctrl_alt_del d).UEP2_CTRL = d.UEP2_CTRL :=
  ⟨rfl, rfl, rfl, rfl, rfl, rfl, rfl⟩

/-- C17: every pass of the main loop is, in this order, `handle_reboot_button`,
`update_timeouts(20)`, `apply_status_strip`, `DLY_ms(20)`, `WDT_reset`, each once:
the trace grows by the Ctrl+Alt+Del sequence (only on an idle-to-pressed edge),
then one frame showing the table after this pass's `update_timeouts(20)`, then
the 20 ms delay, then the watchdog reset; the table after the pass is the
decayed one and `button_last` is the pressed state just read. -/
theorem main_loop_iteration_order (pin : Nat) (d : Device) :
    main_loop_iteration pin d
        = emit Effect.WDT_reset (emit (Effect.DLY_ms 20) (apply_status_strip
            { handle_reboot_button pin d with
              statuses := update_timeouts 20 (handle_reboot_button pin d).statuses }))
    ∧ (main_loop_iteration pin d).trace
        = d.trace
          ++ (if pin = 0 ∧ d.button_last = 0 then ctrl_alt_del_effects else [])
          ++ frame_effects (update_timeouts 20 d.statuses)
          ++ [Effect.DLY_ms 20, Effect.WDT_reset]
    ∧ (main_loop_iteration pin d).statuses = update_timeouts 20 d.statuses
    ∧ (main_loop_iteration pin d).button_last = (if pin = 0 then 1 else 0) := by
  refine ⟨rfl, ?_, main_loop_iteration_statuses pin d, ?_⟩
  · simp only [main_loop_iteration, emit, apply_status_strip_trace,
      handle_reboot_button_statuses, handle_reboot_button_trace]
    by_cases hc : pin = 0 ∧ d.button_last = 0
    · simp [hc, LOOP_DELAY_MS]
    · simp [hc, LOOP_DELAY_MS]
  · simp only [main_loop_iteration, emit, apply_status_strip]
    exact handle_reboot_button_last pin d

/-! ## Additivity of the decay and the lifetime bound -/

theorem decay_slot_add (a b : Nat) (s : LedStatus) (h16 : s.remaining_ms < 65536) :
    decay_slot b (decay_slot a s) = decay_slot (a + b) s := by
  by_cases h0 : s.remaining_ms = 0
  · have e1 : ∀ e, decay_slot e s = s := fun e => by simp [decay_slot, h0]
    rw [e1 a, e1 b, e1 (a + b)]
  · by_cases ha : s.remaining_ms ≤ a
    · have e1 : decay_slot a s = ⟨0, 0, 0, 0⟩ := by simp [decay_slot, h0, ha]
      have hab : s.remaining_ms ≤ a + b := by omega
      have e2 : decay_slot (a + b) s = ⟨0, 0, 0, 0⟩ := by simp [decay_slot, h0, hab]
      rw [e1, e2]
      simp [decay_slot]
    · have hlt : a < s.remaining_ms := Nat.lt_of_not_le ha
      rw [decay_slot_sub a s h0 hlt h16]
      have h0a : ({ s with remaining_ms := s.remaining_ms - a } : LedStatus).remaining_ms ≠ 0 := by
        show s.remaining_ms - a ≠ 0
        omega
      have h16a : ({ s with remaining_ms := s.remaining_ms - a } : LedStatus).remaining_ms
          < 65536 := by
        show s.remaining_ms - a < 65536
        omega
      by_cases hb : s.remaining_ms ≤ a + b
      · have e2 : decay_slot (a + b) s = ⟨0, 0, 0, 0⟩ := by simp [decay_slot, h0, hb]
        have hb2 : ({ s with remaining_ms := s.remaining_ms - a } : LedStatus).remaining_ms
            ≤ b := by
          show s.remaining_ms - a ≤ b
          omega
        rw [e2]
        unfold decay_slot
        rw [if_neg h0a, if_pos hb2]
      · have hlt2 : a + b < s.remaining_ms := Nat.lt_of_not_le hb
        have hb2 : b < ({ s with remaining_ms := s.remaining_ms - a } : LedStatus).remaining_ms := by
          show b < s.remaining_ms - a
          omega
        rw [decay_slot_sub (a + b) s h0 hlt2 h16, decay_slot_sub b _ h0a hb2 h16a]
        show ({ s with remaining_ms := s.remaining_ms - a - b } : LedStatus)
          = { s with remaining_ms := s.remaining_ms - (a + b) }
        rw [Nat.sub_sub]

/-- C18: for every status table with 16-bit lifetimes and all elapsed values
`a` and `b` (in particular all 16-bit values with `a + b <= 65535`),
`update_timeouts(a)` followed by `update_timeouts(b)` yields exactly the table
that a single `update_timeouts(a + b)` yields. -/
theorem update_timeouts_additive (statuses : Statuses) (a b : Nat)
    (h16 : ∀ j, (statuses j).remaining_ms < 65536) :
    update_timeouts b (update_timeouts a statuses) = update_timeouts (a + b) statuses := by
  funext j
  rw [update_timeouts_apply, update_timeouts_apply, update_timeouts_apply,
    decay_slot_add a b (statuses j) (h16 j)]

theorem update_timeouts_additive_witness :
    update_timeouts 4990 (update_timeouts 20 (set_status (set_status all_cleared 3 255 0 0) 7 0 0 0))
      = update_timeouts (20 + 4990) (set_status (set_status all_cleared 3 255 0 0) 7 0 0 0) :=
  update_timeouts_additive (set_status (set_status all_cleared 3 255 0 0) 7 0 0 0) 20 4990
    (by decide)

theorem TableCall.apply_bounded (statuses : Statuses)
    (hs : ∀ j, (statuses j).remaining_ms ≤ STATUS_TIMEOUT_MS
      ∧ ((statuses j).remaining_ms = 0 → statuses j = ⟨0, 0, 0, 0⟩))
    (c : TableCall) (j : Fin LED_COUNT) :
    (c.apply statuses j).remaining_ms ≤ STATUS_TIMEOUT_MS
    ∧ ((c.apply statuses j).remaining_ms = 0 → c.apply statuses j = ⟨0, 0, 0, 0⟩) := by
  rw [TableCall.apply_slot]
  cases c with
  | set_status index r g b =>
    by_cases hj : j.val = index
    · simp only [hj, if_true]
      exact ⟨Nat.le_refl _, fun h => absurd h (by simp [STATUS_TIMEOUT_MS])⟩
    · simp only [hj, if_false]; exact hs j
  | clear_status index =>
    by_cases hj : j.val = index
    · simp only [hj, if_true]; exact ⟨Nat.zero_le _, fun _ => trivial⟩
    · simp only [hj, if_false]; exact hs j
  | update_timeouts e =>
    obtain ⟨hle, hz⟩ := hs j
    show (decay_slot e (statuses j)).remaining_ms ≤ STATUS_TIMEOUT_MS
      ∧ ((decay_slot e (statuses j)).remaining_ms = 0 → decay_slot e (statuses j) = ⟨0, 0, 0, 0⟩)
    by_cases h0 : (statuses j).remaining_ms = 0
    · have : decay_slot e (statuses j) = statuses j := by simp [decay_slot, h0]
      rw [this]; exact ⟨hle, hz⟩
    · by_cases h1 : (statuses j).remaining_ms ≤ e
      · have : decay_slot e (statuses j) = ⟨0, 0, 0, 0⟩ := by simp [decay_slot, h0, h1]
        rw [this]; exact ⟨Nat.zero_le _, fun _ => rfl⟩
      · have h16 : (statuses j).remaining_ms < 65536 := by
          have : (statuses j).remaining_ms ≤ 5000 := hle
          omega
        rw [decay_slot_sub e _ h0 (Nat.lt_of_not_le h1) h16]
        constructor
        · exact Nat.le_trans (Nat.sub_le _ _) hle
        · intro hz2
          have : (statuses j).remaining_ms - e = 0 := hz2
          omega

theorem run_device_calls_bounded (m a ctrl : Nat) (calls : List DeviceCall)
    (j : Fin LED_COUNT) :
    ((run_device_calls m a ctrl calls).statuses j).remaining_ms ≤ STATUS_TIMEOUT_MS
    ∧ (((run_device_calls m a ctrl calls).statuses j).remaining_ms = 0 →
        (run_device_calls m a ctrl calls).statuses j = ⟨0, 0, 0, 0⟩) := by
  have key : ∀ (cs : List DeviceCall) (d : Device),
      (∀ j, (d.statuses j).remaining_ms ≤ STATUS_TIMEOUT_MS
        ∧ ((d.statuses j).remaining_ms = 0 → d.statuses j = ⟨0, 0, 0, 0⟩)) →
      ∀ j, ((cs.foldl (DeviceCall.apply m a) d).statuses j).remaining_ms ≤ STATUS_TIMEOUT_MS
        ∧ (((cs.foldl (DeviceCall.apply m a) d).statuses j).remaining_ms = 0 →
            (cs.foldl (DeviceCall.apply m a) d).statuses j = ⟨0, 0, 0, 0⟩) := by
    intro cs
    induction cs with
    | nil => intro d hd; exact hd
    | cons c rest ih =>
      intro d hd
      rw [List.foldl_cons]
      apply ih
      cases c with
      | table t => exact fun j => TableCall.apply_bounded d.statuses hd t j
      | HID_EP2_OUT len buf =>
        intro j
        show ((HID_EP2_OUT m a len buf d).statuses j).remaining_ms ≤ STATUS_TIMEOUT_MS
          ∧ (((HID_EP2_OUT m a len buf d).statuses j).remaining_ms = 0 →
              (HID_EP2_OUT m a len buf d).statuses j = ⟨0, 0, 0, 0⟩)
        rw [HID_EP2_OUT_statuses]
        by_cases hc : len % 256 ≥ 5 ∧ buf 0 = 0x03
        · rw [if_pos hc]
          exact TableCall.apply_bounded d.statuses hd
            (TableCall.set_status (buf 1) (buf 2) (buf 3) (buf 4)) j
        · rw [if_neg hc]; exact hd j
  have hinit : ∀ j, ((button_boot all_cleared ctrl).statuses j).remaining_ms ≤ STATUS_TIMEOUT_MS
      ∧ (((button_boot all_cleared ctrl).statuses j).remaining_ms = 0 →
          (button_boot all_cleared ctrl).statuses j = ⟨0, 0, 0, 0⟩) :=
    fun j => ⟨Nat.zero_le _, fun _ => rfl⟩
  exact key calls (button_boot all_cleared ctrl) hinit j

/-- C19: in every state reached from the all-cleared table by any sequence of
`set_status`, `clear_status`, `update_timeouts` and `HID_EP2_OUT` calls, every
slot's remaining lifetime is at most 5000; hence one `update_timeouts(e)` with
`e >= 5000` leaves every slot, active or not, at (0,0,0) with lifetime 0. -/
theorem lifetime_at_most_timeout (m a ctrl : Nat) (calls : List DeviceCall)
    (j : Fin LED_COUNT) :
    ((run_device_calls m a ctrl calls).statuses j).remaining_ms ≤ 5000
    ∧ (∀ e : Nat, 5000 ≤ e →
        update_timeouts e (run_device_calls m a ctrl calls).statuses j = ⟨0, 0, 0, 0⟩) := by
  obtain ⟨hle, hz⟩ := run_device_calls_bounded m a ctrl calls j
  refine ⟨hle, fun e he => ?_⟩
  rw [update_timeouts_apply]
  unfold decay_slot
  by_cases h0 : ((run_device_calls m a ctrl calls).statuses j).remaining_ms = 0
  · rw [if_pos h0]; exact hz h0
  · have hle2 : ((run_device_calls m a ctrl calls).statuses j).remaining_ms ≤ e :=
      Nat.le_trans hle he
    rw [if_neg h0, if_pos hle2]

end LedStatusFw
